import Mathlib

/-!
Verification of the gmail-pub-sub webhook service (src/index.js, with the
match-record accumulation of the earlier iteration in src/unnamed/part_000).

Modelling conventions (shallow embedding of the JavaScript source):
* JavaScript strings are Lean `String`s; the JS values `null` / `undefined`
  in string position are modelled by `""`, because every check the source
  performs on these values is a truthiness check (`if (s)`, `s || d`) under
  which `null`, `undefined` and `""` behave identically.
* Optional object fields are `Option` values.
* Network effects are oracles: a `World` record supplies the outcome of the
  i-th network exchange of each kind, and the embedded functions thread
  explicit counters so that the number of requests made is observable.
-/

namespace GmailPubSub

/-! ## Base64 decoding (`Buffer.from(s, "base64").toString("utf-8")`)

Node's base64 decoder is forgiving: characters outside the base64 / base64url
alphabet (including `=` padding and whitespace) are skipped, full groups of
four sextets yield three bytes, a trailing group of three yields two bytes,
of two yields one byte, and a lone trailing sextet is dropped.  The byte
sequence is then decoded as UTF-8 (invalid sequences become U+FFFD). -/

/-- Value of one base64 / base64url alphabet character; `none` for characters
Node's forgiving decoder skips. -/
def b64Val (c : Char) : Option Nat :=
  let n := c.toNat
  if 65 ≤ n ∧ n ≤ 90 then some (n - 65)          -- A-Z
  else if 97 ≤ n ∧ n ≤ 122 then some (n - 97 + 26) -- a-z
  else if 48 ≤ n ∧ n ≤ 57 then some (n - 48 + 52)  -- 0-9
  else if c = '+' ∨ c = '-' then some 62
  else if c = '/' ∨ c = '_' then some 63
  else none

/-- Regroup a list of sextets (6-bit values) into bytes, dropping a lone
trailing sextet. -/
def sextetsToBytes : List Nat → List Nat
  | a :: b :: c :: d :: rest =>
      (a * 4 + b / 16) :: ((b % 16) * 16 + c / 4) :: ((c % 4) * 64 + d) ::
        sextetsToBytes rest
  | [a, b, c] => [a * 4 + b / 16, (b % 16) * 16 + c / 4]
  | [a, b] => [a * 4 + b / 16]
  | _ => []

/-- Is `n` a UTF-8 continuation byte (`0x80`–`0xBF`)? -/
def isCont (n : Nat) : Bool := 128 ≤ n && n ≤ 191

/-- Decode a byte list as UTF-8, invalid sequences becoming U+FFFD (one
replacement per rejected lead byte, resuming at the following byte).  The
fuel argument only makes the recursion structural; `fuel ≥ length` suffices
for the full decode. -/
def utf8Go : Nat → List Nat → List Char
  | 0, _ => []
  | _ + 1, [] => []
  | fuel + 1, b :: t =>
    if b < 128 then
      Char.ofNat b :: utf8Go fuel t
    else if 194 ≤ b ∧ b ≤ 223 then
      match t with
      | b2 :: t2 =>
        if isCont b2 then
          Char.ofNat ((b - 192) * 64 + (b2 - 128)) :: utf8Go fuel t2
        else Char.ofNat 0xFFFD :: utf8Go fuel t
      | [] => [Char.ofNat 0xFFFD]
    else if 224 ≤ b ∧ b ≤ 239 then
      match t with
      | b2 :: b3 :: t3 =>
        if isCont b2 && isCont b3 &&
            (b != 224 || 160 ≤ b2) && (b != 237 || b2 ≤ 159) then
          Char.ofNat ((b - 224) * 4096 + (b2 - 128) * 64 + (b3 - 128)) ::
            utf8Go fuel t3
        else Char.ofNat 0xFFFD :: utf8Go fuel t
      | [_] => [Char.ofNat 0xFFFD, Char.ofNat 0xFFFD]
      | [] => [Char.ofNat 0xFFFD]
    else if 240 ≤ b ∧ b ≤ 244 then
      match t with
      | b2 :: b3 :: b4 :: t4 =>
        if isCont b2 && isCont b3 && isCont b4 &&
            (b != 240 || 144 ≤ b2) && (b != 244 || b2 ≤ 143) then
          Char.ofNat ((b - 240) * 262144 + (b2 - 128) * 4096 +
            (b3 - 128) * 64 + (b4 - 128)) :: utf8Go fuel t4
        else Char.ofNat 0xFFFD :: utf8Go fuel t
      | t' => Char.ofNat 0xFFFD :: utf8Go fuel t'
    else
      Char.ofNat 0xFFFD :: utf8Go fuel t

/-- Model of `Buffer.from(s, "base64").toString("utf-8")`. -/
def decodeB64 (s : String) : String :=
  let bytes := sextetsToBytes (s.toList.filterMap b64Val)
  String.mk (utf8Go bytes.length bytes)

example : decodeB64 "aGk" = "hi" := by decide
example : decodeB64 "aGVsbG8=" = "hello" := by decide
example : decodeB64 "E" = "" := by decide
example : decodeB64 "=" = "" := by decide

/-! ## Marker extraction (src/index.js lines 299-328)

The source locates `"spam-test-"` in the decoded plain-text body with
`String.prototype.indexOf`, takes the remainder after the first occurrence,
splits it with the regex `[\s\n,.]+` and takes element 0 (equivalently: the
longest initial run free of whitespace, `,` and `.`), then tests that
candidate against the anchored UUID regex
`^[0-9a-fA-F]{8}-[0-9a-fA-F]{4}-[0-9a-fA-F]{4}-[0-9a-fA-F]{4}-[0-9a-fA-F]{12}$`. -/

/-- Membership of a character in the ECMAScript `\s` class (WhiteSpace and
LineTerminator code points). -/
def isJsSpace (c : Char) : Bool :=
  let n := c.toNat
  n == 0x20 || n == 0x09 || n == 0x0A || n == 0x0B || n == 0x0C || n == 0x0D ||
  n == 0xA0 || n == 0x1680 || (0x2000 ≤ n && n ≤ 0x200A) ||
  n == 0x2028 || n == 0x2029 || n == 0x202F || n == 0x205F ||
  n == 0x3000 || n == 0xFEFF

/-- Character class of the splitting regex `[\s\n,.]+`. -/
def isSepChar (c : Char) : Bool := isJsSpace c || c == ',' || c == '.'

/-- Does `pat` occur at the very start of `l`? -/
def matchesAt : List Char → List Char → Bool
  | [], _ => true
  | _ :: _, [] => false
  | p :: ps, c :: cs => p == c && matchesAt ps cs

/-- Index of the first occurrence of `pat` in `l`
(`String.prototype.indexOf`; `none` for JS `-1`). -/
def firstOccIdx (pat : List Char) : List Char → Option Nat
  | [] => if matchesAt pat [] then some 0 else none
  | c :: t =>
    if matchesAt pat (c :: t) then some 0
    else (firstOccIdx pat t).map Nat.succ

/-- Hexadecimal-digit test of the UUID regex character class. -/
def uuidHex (c : Char) : Bool :=
  let n := c.toNat
  (48 ≤ n && n ≤ 57) || (97 ≤ n && n ≤ 102) || (65 ≤ n && n ≤ 70)

/-- Check that `l` consists of hyphen-separated hex-digit groups whose
lengths are given by `ns`, consuming the whole list (anchored match). -/
def groupShape : List Nat → List Char → Bool
  | [n], l => l.length == n && l.all uuidHex
  | n :: ns, l =>
    (l.take n).length == n && (l.take n).all uuidHex &&
      (match l.drop n with
       | '-' :: rest => groupShape ns rest
       | _ => false)
  | [], l => l.isEmpty

/-- The anchored 8-4-4-4-12 case-insensitive hexadecimal UUID shape. -/
def uuidShape (l : List Char) : Bool := groupShape [8, 4, 4, 4, 12] l

/-- The literal marker `bodyPrefix = "spam-test-"` of the source. -/
def bodyPrefixStr : String := "spam-test-"

/-- Marker extraction: first occurrence of the literal marker, candidate up
to the first separator run, validated against the UUID shape; `some` is the
source's MATCH branch (the logged `potentialUuid`), `none` covers both the
prefix-absent and the malformed-candidate branches. -/
def extractMarker (text : String) : Option String :=
  match firstOccIdx bodyPrefixStr.toList text.toList with
  | none => none
  | some i =>
    let cand := (text.toList.drop (i + bodyPrefixStr.length)).takeWhile
      (fun c => !(isSepChar c))
    if uuidShape cand then some (String.mk cand) else none

example :
    extractMarker "...spam-test-1a2b3c4d-1a2b-1a2b-1a2b-1a2b3c4d5e6f more text" =
      some "1a2b3c4d-1a2b-1a2b-1a2b-1a2b3c4d5e6f" := by decide

example : extractMarker "...spam-test-not-a-uuid" = none := by decide

example : extractMarker "hello" = none := by decide

/-! ## Body-part tree and `findPlainTextPart` (src/index.js lines 275-292)

A Gmail body part carries a MIME type, possibly inline base64url payload
data, and possibly child parts.  The source's guard
`part.body && part.body.data` is a truthiness check, so absent `body`,
absent `data` and empty `data` coincide: `bodyData = ""` models all three.
Likewise `part.parts && part.parts.length > 0` makes an absent list and an
empty list coincide: `parts = []` models both. -/

/-- Recursive body-part node. -/
inductive Part where
  | mk (mimeType : String) (bodyData : String) (parts : List Part)

/-- MIME type of a part. -/
def Part.mimeType : Part → String
  | .mk m _ _ => m

/-- Inline payload data of a part (`""` for absent). -/
def Part.bodyData : Part → String
  | .mk _ b _ => b

/-- Child parts. -/
def Part.parts : Part → List Part
  | .mk _ _ ps => ps

mutual

/-- Model of `findPlainTextPart`: on a direct hit (`mimeType === "text/plain"`
with truthy `body.data`) return the decoded payload immediately; otherwise
scan the children in order; `none` models the JS `null`. -/
def findPlainTextPart : Part → Option String
  | .mk m b ps =>
    if m = "text/plain" ∧ b ≠ "" then some (decodeB64 b)
    else findInParts ps

/-- The `for (const subPart of part.parts)` loop: a child's result is
returned only when truthy (`if (foundBody) return foundBody`), so both
`null` and `""` results from a child let the loop continue. -/
def findInParts : List Part → Option String
  | [] => none
  | q :: qs =>
    match findPlainTextPart q with
    | some s => if s = "" then findInParts qs else some s
    | none => findInParts qs

end

mutual

/-- Payloads of candidate nodes (plain-text with truthy data) in the order
the source visits them; a candidate's own subtree is never visited. -/
def candList : Part → List String
  | .mk m b ps =>
    if m = "text/plain" ∧ b ≠ "" then [decodeB64 b] else candsIn ps

/-- Concatenation of `candList` over a list of parts. -/
def candsIn : List Part → List String
  | [] => []
  | q :: qs => candList q ++ candsIn qs

end

mutual

/-- Modelled from the spec (§4.5 of the specification): the searcher the
spec describes, which returns the decoded payload of the first pre-order
node whose MIME type is exactly the plain-text type and which carries
inline payload data, unconditionally, without continuing after that hit. -/
def specFirstHit : Part → Option String
  | .mk m b ps =>
    if m = "text/plain" ∧ b ≠ "" then some (decodeB64 b)
    else specFirstHitIn ps

/-- Child scan of `specFirstHit`: the first non-`none` child result wins. -/
def specFirstHitIn : List Part → Option String
  | [] => none
  | q :: qs =>
    match specFirstHit q with
    | some s => some s
    | none => specFirstHitIn qs

end

example :
    findPlainTextPart
      (.mk "multipart/mixed" ""
        [.mk "text/plain" "E" [], .mk "text/plain" "aGk" []]) = some "hi" := by
  decide

example :
    specFirstHit
      (.mk "multipart/mixed" ""
        [.mk "text/plain" "E" [], .mk "text/plain" "aGk" []]) = some "" := by
  decide

example : findPlainTextPart (.mk "text/plain" "E" []) = some "" := by decide

example :
    findPlainTextPart
      (.mk "multipart/mixed" ""
        [.mk "multipart/alternative" ""
          [.mk "multipart/related" ""
            [.mk "text/html" "PGI+" [], .mk "text/plain" "aGk" []]]]) =
      some "hi" := by decide

/-! ## Credential store and refresher (src/index.js lines 95-137)

`currentAccessToken` / `currentRefreshToken` are JS globals checked only for
truthiness, so `""` models `null`.  The token-exchange network call is an
oracle outcome: `ok a r` is a 2xx response whose body carries
`access_token = a` and, when `r ≠ ""`, a rotated `refresh_token = r`;
`err` is any network or provider-rejection failure (the `catch` branch). -/

/-- Credential store (`currentAccessToken`, `currentRefreshToken`). -/
structure CredState where
  access : String
  refresh : String
deriving DecidableEq

/-- Outcome of one token-exchange network call. -/
inductive RefreshNetResult where
  | ok (accessTok : String) (refreshTok : String)
  | err
deriving DecidableEq

/-- Model of `refreshAccessToken`.  Returns the value the JS function
returns (`none` for `null`), the new credential store, and whether a
network call was made.  Without a refresh credential it returns `null`
without touching the network; on a failed exchange it clears both stored
credentials; on success it stores the new access credential and rotates
the refresh credential only when one was issued. -/
def refreshAccessToken (net : RefreshNetResult) (st : CredState) :
    Option String × CredState × Bool :=
  if st.refresh = "" then (none, st, false)
  else
    match net with
    | .ok a r => (some a, ⟨a, if r = "" then st.refresh else r⟩, true)
    | .err => (none, ⟨"", ""⟩, true)

/-! ## Resilient API caller (src/index.js lines 140-174)

`callGmailApi` is embedded with instrumentation counters so that the number
of refresher invocations, token-exchange network calls, 401-triggered
refreshes, and issued data requests are observable.  The oracle functions
give the outcome of the i-th network exchange of each kind.  The
`retryCount` parameter of the source (`retryCount < 1` guards the retry) is
represented by the remaining-retries fuel: the outer call runs with fuel 1,
the single retry with fuel 0. -/

/-- Outcome of one data-request network call: a success, an HTTP error
response carrying a status (`error.response.status`), or a network error
without a response. -/
inductive ApiNetResult where
  | ok (resp : Nat)
  | httpErr (status : Nat)
  | netErr
deriving DecidableEq

/-- Result of `callGmailApi` as seen by its caller: a response, the thrown
`Failed to obtain access token after refresh attempt.` error, or a
propagated request error. -/
inductive CallOutcome where
  | ok (resp : Nat)
  | noTokenErr
  | apiErr (e : ApiNetResult)
deriving DecidableEq

/-- Network oracles for one logical `callGmailApi` call. -/
structure CallWorld where
  refreshNet : Nat → RefreshNetResult
  apiNet : Nat → ApiNetResult

/-- Instrumentation counters: invocations of `refreshAccessToken`,
token-exchange network calls actually made, refreshes triggered by a 401
response, and data requests issued. -/
structure CallStats where
  refreshCalls : Nat
  refreshNetCalls : Nat
  authRefreshes : Nat
  dataRequests : Nat
deriving DecidableEq

/-- One `await refreshAccessToken()` from inside `callGmailApi`, threading
the counters. -/
def doRefresh (w : CallWorld) (st : CredState) (s : CallStats) :
    CredState × CallStats :=
  match refreshAccessToken (w.refreshNet s.refreshNetCalls) st with
  | (_, st2, madeCall) =>
    (st2, { s with refreshCalls := s.refreshCalls + 1,
                   refreshNetCalls :=
                     s.refreshNetCalls + (if madeCall then 1 else 0) })

/-- Entry guard of `callGmailApi` (lines 141-147): with no access credential
held, try a refresh; if still none, the `Failed to obtain access token`
error is thrown (`Except.error`). -/
def tokenEntry (w : CallWorld) (st : CredState) (s : CallStats) :
    Except (CredState × CallStats) (CredState × CallStats) :=
  if st.access = "" then
    let (st1, s1) := doRefresh w st s
    if st1.access = "" then .error (st1, s1) else .ok (st1, s1)
  else .ok (st, s)

/-- Body of `callGmailApi`: entry token guard, data request, and the
single 401-triggered refresh-and-retry. -/
def callGmailApiGo (w : CallWorld) :
    Nat → CredState → CallStats → CallOutcome × CredState × CallStats
  | fuel, st, s =>
    match tokenEntry w st s with
    | .error (st1, s1) => (.noTokenErr, st1, s1)
    | .ok (st1, s1) =>
      let s2 := { s1 with dataRequests := s1.dataRequests + 1 }
      match w.apiNet s1.dataRequests with
      | .ok r => (.ok r, st1, s2)
      | .httpErr n =>
        match fuel with
        | fuel' + 1 =>
          if n = 401 then
            let (st2, s3) := doRefresh w st1 s2
            let s4 := { s3 with authRefreshes := s3.authRefreshes + 1 }
            if st2.access ≠ "" then callGmailApiGo w fuel' st2 s4
            else (.apiErr (.httpErr n), st2, s4)
          else (.apiErr (.httpErr n), st1, s2)
        | 0 => (.apiErr (.httpErr n), st1, s2)
      | .netErr => (.apiErr .netErr, st1, s2)

/-- One logical call through the resilient API caller
(`callGmailApi(url, config)` with the default `retryCount = 0`). -/
def callGmailApi (w : CallWorld) (st : CredState) :
    CallOutcome × CredState × CallStats :=
  callGmailApiGo w 1 st ⟨0, 0, 0, 0⟩

example :
    (callGmailApi
      ⟨fun _ => .ok "A" "", fun n => if n = 0 then .httpErr 401 else .ok 7⟩
      ⟨"", "R"⟩) = (.ok 7, ⟨"A", "R"⟩, ⟨2, 2, 1, 2⟩) := by decide

example :
    (callGmailApi ⟨fun _ => .ok "A" "", fun _ => .ok 7⟩ ⟨"T", "R"⟩) =
      (.ok 7, ⟨"T", "R"⟩, ⟨0, 0, 0, 1⟩) := by decide

example :
    (callGmailApi ⟨fun _ => .err, fun _ => .ok 7⟩ ⟨"", ""⟩) =
      (.noTokenErr, ⟨"", ""⟩, ⟨1, 0, 0, 0⟩) := by decide

/-! ## Webhook orchestrator (src/index.js lines 177-383)

The handler is embedded from the point where the Pub/Sub payload has been
decoded and the mailbox identifier validated (line 204 onward).  The two
network calls it makes both go through `callGmailApi`; here they are
abstracted as oracles: `delta` gives the outcome of the history-list call
as a function of the `startHistoryId` sent, and `msgFetch` gives the
outcome of the message-details call per message id (`Except.error` is any
exception caught by the per-message `catch`).  The per-message match-record
accumulation (`matchedEmailsForLog.push`) follows src/unnamed/part_000
lines 132-145; the cursor logic (lines 30-31 and 198-203 there) is verbatim
identical to src/index.js lines 204-205 and 368-373. -/

/-- Message summary as it appears in a `messagesAdded` entry. -/
structure MsgSummary where
  id : String
  labelIds : Option (List String)

/-- One element of a history item's `messagesAdded` array. -/
structure AddedMsg where
  message : Option MsgSummary

/-- One element of the `history` array. -/
structure HistoryItem where
  messagesAdded : Option (List AddedMsg)

/-- Response body of the history-list call: `history` may be absent, and
`historyId` (`""` for absent) is the new high-water cursor. -/
structure HistoryData where
  history : Option (List HistoryItem)
  historyId : String

/-- Full message details returned by the message-details call. -/
structure FullMessage where
  labelIds : Option (List String)
  payload : Option Part

/-- Outcome of the delta fetch: the parsed response body, or any exception
propagated out of `callGmailApi` (caught by the handler's outer `catch`). -/
inductive DeltaOutcome where
  | ok (hd : HistoryData)
  | err

/-- Network oracles for one notification. -/
structure NotifWorld where
  delta : String → DeltaOutcome
  msgFetch : String → Except Unit FullMessage

/-- Match record pushed onto `matchedEmailsForLog` (src/unnamed/part_000
lines 137-140). -/
structure MatchRecord where
  id : String
  labels : List String
deriving DecidableEq

/-- Observable end state of one handler run: normal completion with the
accumulated match list, or the outer `catch` (`Critical Error processing
webhook batch`). -/
inductive HandlerOutcome where
  | completed (matchList : List MatchRecord)
  | criticalError
deriving DecidableEq

/-- JS `a || b` on an optional string: a present, non-empty value wins,
anything falsy falls through. -/
def jsOrS (o : Option String) (d : String) : String :=
  match o with
  | some s => if s = "" then d else s
  | none => d

/-- Line 204-205: `lastProcessedHistoryIdByUser[emailAddress] || notifiedHistoryId`. -/
def resolveStartCursor (t : String → Option String) (email notified : String) :
    String :=
  jsOrS (t email) notified

/-- Message ids the nested history loop visits (guards `historyItem.messagesAdded`,
`messageSummary && messageSummary.id` as in lines 222-227). -/
def collectAddedIds (hd : HistoryData) : List String :=
  match hd.history with
  | none => []
  | some items =>
    items.flatMap fun it =>
      match it.messagesAdded with
      | none => []
      | some adds =>
        adds.filterMap fun a =>
          match a.message with
          | some m => if m.id = "" then none else some m.id
          | none => none

/-- Body-and-marker step for one resolved message (lines 296-328 of
src/index.js; record shape from src/unnamed/part_000 lines 119-145):
run only under the truthiness guard `if (plainTextBody)`, and on a UUID
match push `{ id: potentialUuid, labels: labelIds || [] }`. -/
def bodyMarkerRecord (body : Option String) (labelIds : Option (List String)) :
    Option MatchRecord :=
  match body with
  | some s =>
    if s = "" then none
    else
      match extractMarker s with
      | some u => some ⟨u, labelIds.getD []⟩
      | none => none
  | none => none

/-- Per-message step: resolve the message (failures isolated by the inner
`catch`), compute `plainTextBody` (initialised to `""`, overwritten by
`findPlainTextPart` only when a payload is present), then the marker step. -/
def processMessage (w : NotifWorld) (mid : String) : Option MatchRecord :=
  match w.msgFetch mid with
  | .error _ => none
  | .ok fm =>
    bodyMarkerRecord
      (match fm.payload with
       | some p => findPlainTextPart p
       | none => some "")
      fm.labelIds

/-- Point update of the cursor table. -/
def updateTable (t : String → Option String) (k v : String) :
    String → Option String :=
  fun x => if x = k then some v else t x

/-- One handler run from the decoded, validated notification onward:
resolve the start cursor, fetch the delta (outer `catch` on failure),
process each added message with isolated failures, and commit
`historyData.historyId` to the cursor table when truthy. -/
def runWebhook (w : NotifWorld) (t : String → Option String)
    (email notified : String) :
    (String → Option String) × HandlerOutcome :=
  let start := resolveStartCursor t email notified
  match w.delta start with
  | .err => (t, .criticalError)
  | .ok hd =>
    let matchList := (collectAddedIds hd).filterMap (processMessage w)
    let t2 := if hd.historyId = "" then t else updateTable t email hd.historyId
    (t2, .completed matchList)

/-! ## Helper lemmas -/

/-- Occurrence of the literal marker at position `i` of `text`. -/
def occursAt (text : String) (i : Nat) : Prop :=
  bodyPrefixStr.toList <+: text.toList.drop i

theorem matchesAt_iff (pat l : List Char) :
    matchesAt pat l = true ↔ pat <+: l := by
  induction pat generalizing l with
  | nil => simp [matchesAt, List.nil_prefix]
  | cons p ps ih =>
    cases l with
    | nil => simp [matchesAt, List.prefix_nil]
    | cons c cs =>
      simp [matchesAt, List.cons_prefix_cons, ih, Bool.and_eq_true, beq_iff_eq]

theorem firstOccIdx_none_iff (pat l : List Char) :
    firstOccIdx pat l = none ↔ ∀ i, ¬ pat <+: l.drop i := by
  induction l with
  | nil =>
    simp only [firstOccIdx, List.drop_nil]
    constructor
    · intro h i hp
      have hm : matchesAt pat [] = true := (matchesAt_iff pat []).mpr hp
      simp [hm] at h
    · intro h
      have hm : ¬ matchesAt pat [] = true := by
        intro hm
        exact h 0 ((matchesAt_iff pat []).mp hm)
      simp [hm]
  | cons c t ih =>
    simp only [firstOccIdx]
    constructor
    · intro h i
      by_cases hm : matchesAt pat (c :: t) = true
      · simp [hm] at h
      · rw [if_neg hm] at h
        cases i with
        | zero =>
          intro hp
          exact hm ((matchesAt_iff _ _).mpr (by simpa using hp))
        | succ j =>
          have ht : firstOccIdx pat t = none := by
            cases hft : firstOccIdx pat t with
            | none => rfl
            | some k => rw [hft] at h; simp at h
          exact (ih.mp ht) j
    · intro h
      have hm : ¬ matchesAt pat (c :: t) = true := by
        intro hm
        exact h 0 (by simpa using (matchesAt_iff _ _).mp hm)
      rw [if_neg hm]
      have ht : firstOccIdx pat t = none := ih.mpr fun i => by
        simpa using h (i + 1)
      simp [ht]

theorem firstOccIdx_some (pat l : List Char) (i : Nat)
    (h : firstOccIdx pat l = some i) :
    pat <+: l.drop i ∧ ∀ j, j < i → ¬ pat <+: l.drop j := by
  induction l generalizing i with
  | nil =>
    simp only [firstOccIdx] at h
    by_cases hm : matchesAt pat [] = true
    · rw [if_pos hm] at h
      obtain rfl : i = 0 := by simpa using h.symm
      refine ⟨by simpa using (matchesAt_iff pat []).mp hm, ?_⟩
      intro j hj; omega
    · simp [hm] at h
  | cons c t ih =>
    simp only [firstOccIdx] at h
    by_cases hm : matchesAt pat (c :: t) = true
    · rw [if_pos hm] at h
      obtain rfl : i = 0 := by simpa using h.symm
      refine ⟨by simpa using (matchesAt_iff _ _).mp hm, ?_⟩
      intro j hj; omega
    · rw [if_neg hm] at h
      cases hft : firstOccIdx pat t with
      | none => rw [hft] at h; simp at h
      | some k =>
        rw [hft] at h
        obtain rfl : i = k + 1 := by simpa using h.symm
        obtain ⟨hk, hmin⟩ := ih k hft
        refine ⟨by simpa using hk, ?_⟩
        intro j hj
        cases j with
        | zero => rw [← matchesAt_iff]; simpa using hm
        | succ j' =>
          have : j' < k := by omega
          simpa using hmin j' this

mutual

/-- Characterisation of `findPlainTextPart`: a direct root hit returns its
decoded payload unconditionally; otherwise the result is the first
candidate payload (in pruned pre-order) that decodes non-empty. -/
theorem findPlainTextPart_eq : ∀ p : Part,
    findPlainTextPart p =
      if p.mimeType = "text/plain" ∧ p.bodyData ≠ "" then
        some (decodeB64 p.bodyData)
      else (candsIn p.parts).find? (fun s => s != "")
  | .mk m b ps => by
    simp only [findPlainTextPart, Part.mimeType, Part.bodyData, Part.parts]
    split
    · rfl
    · exact findInParts_eq ps

/-- The child scan equals `find?` of the non-empty test over the pruned
pre-order candidate payloads. -/
theorem findInParts_eq : ∀ ps : List Part,
    findInParts ps = (candsIn ps).find? (fun s => s != "")
  | [] => by simp [findInParts, candsIn]
  | q :: qs => by
    have hq := findPlainTextPart_eq q
    have hqs := findInParts_eq qs
    simp only [findInParts, candsIn, List.find?_append]
    cases q with
    | mk m b ps =>
      simp only [Part.mimeType, Part.bodyData, Part.parts] at hq
      by_cases hhit : m = "text/plain" ∧ b ≠ ""
      · rw [if_pos hhit] at hq
        rw [hq]
        simp only [candList, if_pos hhit, List.find?]
        by_cases he : decodeB64 b = ""
        · simp [he, hqs, Option.or]
        · have hbne : (decodeB64 b != "") = true := bne_iff_ne.mpr he
          simp [he, hbne, Option.or]
      · rw [if_neg hhit] at hq
        rw [hq]
        have hcand : candList (Part.mk m b ps) = candsIn ps := by
          simp [candList, if_neg hhit]
        rw [hcand]
        cases hf : (candsIn ps).find? (fun s => s != "") with
        | none => simp [hf, hqs, Option.or]
        | some s =>
          have hs := List.find?_some hf
          have hs' : s ≠ "" := by simpa using hs
          simp [hf, if_neg hs', Option.or]

end

/-- The child scan never produces the empty string: empty child results are
always filtered by the truthiness check. -/
theorem findInParts_ne_empty : ∀ ps : List Part, findInParts ps ≠ some "" := by
  intro ps
  induction ps with
  | nil => simp [findInParts]
  | cons q qs ih =>
    simp only [findInParts]
    cases findPlainTextPart q with
    | none => exact ih
    | some s =>
      by_cases hs : s = ""
      · simpa [hs] using ih
      · simp [hs]

/-! ## Claim theorems -/

/-- C4: the marker extractor locates only the first occurrence of the
literal case-sensitive marker `spam-test-`; if it is absent the result is
absent; otherwise the candidate is the substring following the marker up to
the first run of whitespace, `,` or `.` characters, and a match is emitted
exactly when the candidate has the 8-4-4-4-12 case-insensitive hexadecimal
shape; the two concrete inputs of the specification behave as stated. -/
theorem marker_extractor_spec :
    (∀ text : String,
        firstOccIdx bodyPrefixStr.toList text.toList = none →
          (∀ i, ¬ occursAt text i) ∧ extractMarker text = none) ∧
    (∀ (text : String) (i : Nat),
        firstOccIdx bodyPrefixStr.toList text.toList = some i →
          occursAt text i ∧ (∀ j, j < i → ¬ occursAt text j) ∧
          extractMarker text =
            (if uuidShape ((text.toList.drop (i + bodyPrefixStr.length)).takeWhile
                  (fun c => !(isSepChar c))) then
              some (String.mk
                ((text.toList.drop (i + bodyPrefixStr.length)).takeWhile
                  (fun c => !(isSepChar c))))
            else none)) ∧
    extractMarker "...spam-test-1a2b3c4d-1a2b-1a2b-1a2b-1a2b3c4d5e6f more text" =
      some "1a2b3c4d-1a2b-1a2b-1a2b-1a2b3c4d5e6f" ∧
    extractMarker "...spam-test-not-a-uuid" = none := by
  refine ⟨?_, ?_, by decide, by decide⟩
  · intro text h
    have h' : firstOccIdx bodyPrefixStr.data text.data = none := h
    exact ⟨(firstOccIdx_none_iff _ _).mp h, by simp [extractMarker, h']⟩
  · intro text i h
    obtain ⟨h1, h2⟩ := firstOccIdx_some _ _ _ h
    have h' : firstOccIdx bodyPrefixStr.data text.data = some i := h
    exact ⟨h1, h2, by simp [extractMarker, h']⟩

/-- Witness for C4 at concrete inputs: a marker-free text yields no match,
and on the specification's example the marker is first found at index 3. -/
theorem marker_extractor_spec_witness :
    ((∀ i, ¬ occursAt "hello world" i) ∧ extractMarker "hello world" = none) ∧
    (occursAt "...spam-test-1a2b3c4d-1a2b-1a2b-1a2b-1a2b3c4d5e6f more text" 3 ∧
      (∀ j, j < 3 →
        ¬ occursAt "...spam-test-1a2b3c4d-1a2b-1a2b-1a2b-1a2b3c4d5e6f more text" j) ∧
      extractMarker "...spam-test-1a2b3c4d-1a2b-1a2b-1a2b-1a2b3c4d5e6f more text" =
        (if uuidShape
              (("...spam-test-1a2b3c4d-1a2b-1a2b-1a2b-1a2b3c4d5e6f more text".toList.drop
                  (3 + bodyPrefixStr.length)).takeWhile (fun c => !(isSepChar c))) then
          some (String.mk
            (("...spam-test-1a2b3c4d-1a2b-1a2b-1a2b-1a2b3c4d5e6f more text".toList.drop
                (3 + bodyPrefixStr.length)).takeWhile (fun c => !(isSepChar c))))
        else none)) :=
  ⟨marker_extractor_spec.1 "hello world" (by decide),
   marker_extractor_spec.2.1 _ 3 (by decide)⟩

/-- Tree refuting C5: its first pre-order plain-text node with inline data
has payload `"E"`, which decodes to the empty string. -/
def cexPartC5 : Part :=
  .mk "multipart/mixed" "" [.mk "text/plain" "E" [], .mk "text/plain" "aGk" []]

/-- Counterexample to C5 as stated: the searcher the spec describes
(`specFirstHit`) returns the decoded payload of the first pre-order hit,
here the empty string, but `findPlainTextPart` continues past that hit to
the sibling and returns its payload instead. -/
theorem findPlainTextPart_continues_past_first_hit :
    specFirstHit cexPartC5 = some "" ∧
    findPlainTextPart cexPartC5 = some "hi" ∧
    findPlainTextPart cexPartC5 ≠ specFirstHit cexPartC5 := by decide

/-- C5 (amended): `findPlainTextPart` returns the decoded payload of the
root immediately when the root itself is a plain-text node with inline
data; otherwise it returns the first payload that decodes non-empty among
the pruned pre-order candidates (plain-text nodes with inline data, their
subtrees not entered), skipping candidates that decode to the empty
string; absent if there is none; and it finds a plain-text part at
nesting depth 3. -/
theorem findPlainTextPart_pruned_preorder :
    (∀ p : Part,
      findPlainTextPart p =
        if p.mimeType = "text/plain" ∧ p.bodyData ≠ "" then
          some (decodeB64 p.bodyData)
        else (candsIn p.parts).find? (fun s => s != "")) ∧
    findPlainTextPart
      (.mk "multipart/mixed" ""
        [.mk "multipart/alternative" ""
          [.mk "multipart/related" ""
            [.mk "text/html" "PGI+" [], .mk "text/plain" "aGk" []]]]) =
      some "hi" :=
  ⟨findPlainTextPart_eq, by decide⟩

/-- Counterexample to C10 as stated: a root plain-text node with non-empty
inline data `"E"` that decodes to the empty string makes
`findPlainTextPart` return the empty string (and its subtree, which holds
a non-empty plain-text part, is never visited). -/
theorem findPlainTextPart_returns_empty_at_root :
    findPlainTextPart (.mk "text/plain" "E" [.mk "text/plain" "aGk" []]) =
      some "" ∧
    ("E" : String) ≠ "" ∧ decodeB64 "E" = "" := by decide

/-- C10 (amended): `findPlainTextPart` returns the empty string only when
the root node itself is a plain-text node with inline data decoding to the
empty string; the child scan never yields the empty string (empty-decoding
non-root candidates are skipped); and an empty or absent body makes the
orchestrator skip marker extraction entirely. -/
theorem empty_payload_handling :
    (∀ p : Part, findPlainTextPart p = some "" →
        p.mimeType = "text/plain" ∧ p.bodyData ≠ "" ∧
        decodeB64 p.bodyData = "") ∧
    (∀ ps : List Part, findInParts ps ≠ some "") ∧
    (∀ labelIds : Option (List String),
        bodyMarkerRecord (some "") labelIds = none ∧
        bodyMarkerRecord none labelIds = none) := by
  refine ⟨?_, findInParts_ne_empty, ?_⟩
  · intro p h
    cases p with
    | mk m b ps =>
      simp only [findPlainTextPart] at h
      by_cases hhit : m = "text/plain" ∧ b ≠ ""
      · rw [if_pos hhit] at h
        exact ⟨hhit.1, hhit.2, by simpa using h⟩
      · rw [if_neg hhit] at h
        exact absurd h (findInParts_ne_empty ps)
  · intro labelIds
    exact ⟨rfl, rfl⟩

/-- Witness for C10 (amended) at the concrete root-hit tree and a concrete
label set. -/
theorem empty_payload_handling_witness :
    ((Part.mk "text/plain" "E" []).mimeType = "text/plain" ∧
      (Part.mk "text/plain" "E" []).bodyData ≠ "" ∧
      decodeB64 (Part.mk "text/plain" "E" []).bodyData = "") ∧
    findInParts [Part.mk "text/plain" "E" []] ≠ some "" ∧
    bodyMarkerRecord (some "") (some ["INBOX"]) = none :=
  ⟨empty_payload_handling.1 (Part.mk "text/plain" "E" []) (by decide),
   empty_payload_handling.2.1 [Part.mk "text/plain" "E" []],
   (empty_payload_handling.2.2 (some ["INBOX"])).1⟩

/-- The UUID used in concrete marker examples. -/
def uuidEx : String := "1a2b3c4d-1a2b-1a2b-1a2b-1a2b3c4d5e6f"

/-- Counterexample to C7 as stated: the record pushed for a matching body
carries the bare candidate as `id`, not the marker text combined with the
candidate. -/
theorem match_record_id_lacks_marker :
    bodyMarkerRecord (some ("spam-test-" ++ uuidEx)) (some ["INBOX", "SPAM"]) =
      some ⟨uuidEx, ["INBOX", "SPAM"]⟩ ∧
    uuidEx ≠ bodyPrefixStr ++ uuidEx := by decide

/-- C7 (amended): whenever marker extraction succeeds on a body, the pushed
match record carries the bare candidate as its extracted token (the marker
text is not prepended) together with the message's label set, defaulted to
the empty list when absent. -/
theorem match_record_candidate_only :
    ∀ (text : String) (labelIds : Option (List String)) (u : String),
      extractMarker text = some u →
      bodyMarkerRecord (some text) labelIds = some ⟨u, labelIds.getD []⟩ := by
  intro text labelIds u h
  have htext : text ≠ "" := by
    intro he
    rw [he] at h
    simp [extractMarker, firstOccIdx, matchesAt, bodyPrefixStr] at h
  simp [bodyMarkerRecord, htext, h]

/-- Witness for C7 (amended) at a concrete matching body. -/
theorem match_record_candidate_only_witness :
    bodyMarkerRecord (some ("spam-test-" ++ uuidEx ++ ", rest")) (some ["SPAM"]) =
      some ⟨uuidEx, ["SPAM"]⟩ :=
  match_record_candidate_only _ (some ["SPAM"]) uuidEx (by decide)

/-- C8: a refresh attempt that fails with a network or provider-rejection
error clears both stored credentials and signals the failure (the JS
function returns `null`) to its caller. -/
theorem refresh_failure_clears_credentials :
    ∀ st : CredState, st.refresh ≠ "" →
      refreshAccessToken .err st = (none, ⟨"", ""⟩, true) := by
  intro st h
  simp [refreshAccessToken, h]

/-- Witness for C8 at a concrete credential store. -/
theorem refresh_failure_clears_credentials_witness :
    refreshAccessToken .err ⟨"tokenA", "tokenR"⟩ = (none, ⟨"", ""⟩, true) :=
  refresh_failure_clears_credentials ⟨"tokenA", "tokenR"⟩ (by decide)

/-- C9: with neither credential held, `callGmailApi` fails immediately with
the credential-unavailable error, making no data request and no
token-exchange network call; and the refresher itself makes no network
call whenever the refresh credential is absent. -/
theorem no_credentials_fail_fast :
    (∀ w : CallWorld,
        callGmailApi w ⟨"", ""⟩ = (.noTokenErr, ⟨"", ""⟩, ⟨1, 0, 0, 0⟩)) ∧
    (∀ (net : RefreshNetResult) (st : CredState), st.refresh = "" →
        refreshAccessToken net st = (none, st, false)) := by
  constructor
  · intro w
    rfl
  · intro net st h
    simp [refreshAccessToken, h]

/-- Witness for C9 at a concrete world and credential store. -/
theorem no_credentials_fail_fast_witness :
    callGmailApi ⟨fun _ => .ok "X" "Y", fun _ => .ok 0⟩ ⟨"", ""⟩ =
      (.noTokenErr, ⟨"", ""⟩, ⟨1, 0, 0, 0⟩) ∧
    refreshAccessToken (.ok "X" "Y") ⟨"stale", ""⟩ = (none, ⟨"stale", ""⟩, false) :=
  ⟨no_credentials_fail_fast.1 _, no_credentials_fail_fast.2 _ _ rfl⟩

/-- Stats effect of one refresher invocation: one invocation recorded, at
most one token-exchange network call, nothing else touched. -/
theorem doRefresh_stats (w : CallWorld) (st : CredState) (s : CallStats) :
    ∃ k, k ≤ 1 ∧
      (doRefresh w st s).2 =
        { s with refreshCalls := s.refreshCalls + 1,
                 refreshNetCalls := s.refreshNetCalls + k } := by
  unfold doRefresh refreshAccessToken
  by_cases h : st.refresh = ""
  · exact ⟨0, by omega, by simp [h]⟩
  · cases w.refreshNet s.refreshNetCalls with
    | ok a r => exact ⟨1, le_refl 1, by simp [h]⟩
    | err => exact ⟨1, le_refl 1, by simp [h]⟩

/-- Stats effect of the retry leg (fuel 0) when a credential is held at
entry: exactly one further data request, nothing else. -/
theorem go0_stats (w : CallWorld) (st : CredState) (s : CallStats)
    (h : st.access ≠ "") :
    (callGmailApiGo w 0 st s).2.2 =
      { s with dataRequests := s.dataRequests + 1 } := by
  rw [callGmailApiGo]
  simp only [tokenEntry, if_neg h]
  cases w.apiNet s.dataRequests <;> simp

/-- C1 (amended): per logical call through `callGmailApi`, at most two data
requests are issued (so at most one retried request), at most one refresh
is triggered by an authorization failure, and — counting also the
pre-flight refresh performed when no access credential is held at entry —
at most two refresher invocations occur in total. -/
theorem callGmailApi_retry_bounds (w : CallWorld) (st : CredState) :
    (callGmailApi w st).2.2.dataRequests ≤ 2 ∧
    (callGmailApi w st).2.2.authRefreshes ≤ 1 ∧
    (callGmailApi w st).2.2.refreshCalls ≤ 2 := by
  unfold callGmailApi
  rw [callGmailApiGo]
  by_cases hacc : st.access = ""
  · rcases hdr : doRefresh w st ⟨0, 0, 0, 0⟩ with ⟨st1, s1⟩
    obtain ⟨k1, hk1, hs1⟩ := doRefresh_stats w st ⟨0, 0, 0, 0⟩
    rw [hdr] at hs1
    simp only at hs1
    simp only [tokenEntry, if_pos hacc, hdr]
    by_cases h1 : st1.access = ""
    · simp only [if_pos h1]
      simp [hs1]
    · simp only [if_neg h1]
      cases hapi : w.apiNet s1.dataRequests with
      | ok r => simp [hs1]
      | netErr => simp [hs1]
      | httpErr n =>
        by_cases hn : n = 401
        · simp only [if_pos hn]
          rcases hdr2 : doRefresh w st1
              { s1 with dataRequests := s1.dataRequests + 1 } with ⟨st2, s3⟩
          obtain ⟨k2, hk2, hs3⟩ := doRefresh_stats w st1
              { s1 with dataRequests := s1.dataRequests + 1 }
          rw [hdr2] at hs3
          simp only at hs3
          by_cases h2 : st2.access = ""
          · simp only [h2, ne_eq, not_true_eq_false, if_false]
            simp [hs3, hs1]
          · simp only [ne_eq, h2, not_false_eq_true, if_true]
            rw [go0_stats w st2 _ h2]
            simp [hs3, hs1]
        · simp only [if_neg hn]
          simp [hs1]
  · simp only [tokenEntry, if_neg hacc]
    cases hapi : w.apiNet 0 with
    | ok r => simp
    | netErr => simp
    | httpErr n =>
      by_cases hn : n = 401
      · simp only [if_pos hn]
        rcases hdr2 : doRefresh w st ⟨0, 0, 0, 1⟩ with ⟨st2, s3⟩
        obtain ⟨k2, hk2, hs3⟩ := doRefresh_stats w st ⟨0, 0, 0, 1⟩
        rw [hdr2] at hs3
        simp only at hs3
        by_cases h2 : st2.access = ""
        · simp only [h2, ne_eq, not_true_eq_false, if_false]
          simp [hs3]
        · simp only [ne_eq, h2, not_false_eq_true, if_true]
          rw [go0_stats w st2 _ h2]
          simp [hs3]
      · simp only [if_neg hn]
        simp

/-- World refuting C1 as stated: full credentials flow, first data request
rejected with 401, retry succeeds. -/
def cexWorldC1 : CallWorld :=
  ⟨fun _ => .ok "A" "", fun n => if n = 0 then .httpErr 401 else .ok 7⟩

/-- Counterexample to C1 as stated: starting with no access credential but
a refresh credential, one logical call performs two refresh attempts (the
pre-flight one and the 401-triggered one), both reaching the network, so
the number of refresh attempts is not bounded by one. -/
theorem two_refresh_attempts_per_call :
    callGmailApi cexWorldC1 ⟨"", "R"⟩ = (.ok 7, ⟨"A", "R"⟩, ⟨2, 2, 1, 2⟩) ∧
    ¬ (callGmailApi cexWorldC1 ⟨"", "R"⟩).2.2.refreshCalls ≤ 1 := by decide

/-- C2: the cursor-table entry for the notified mailbox is set to the delta
fetch's end cursor exactly when the delta fetch succeeded and returned a
(truthy) end cursor; entries of other mailboxes are untouched; a failed
delta fetch leaves the table unchanged; and the committed table does not
depend on the per-message resolution outcomes at all. -/
theorem cursor_commit_rule
    (w : NotifWorld) (t : String → Option String) (email notified : String) :
    (∀ hd, w.delta (resolveStartCursor t email notified) = .ok hd →
      (hd.historyId ≠ "" →
        (runWebhook w t email notified).1 = updateTable t email hd.historyId ∧
        (runWebhook w t email notified).1 email = some hd.historyId ∧
        ∀ x, x ≠ email → (runWebhook w t email notified).1 x = t x) ∧
      (hd.historyId = "" → (runWebhook w t email notified).1 = t)) ∧
    (w.delta (resolveStartCursor t email notified) = .err →
      (runWebhook w t email notified).1 = t) ∧
    (∀ w' : NotifWorld, w'.delta = w.delta →
      (runWebhook w' t email notified).1 = (runWebhook w t email notified).1) := by
  cases hdelta : w.delta (resolveStartCursor t email notified) with
  | err =>
    refine ⟨?_, ?_, ?_⟩
    · intro hd h
      simp at h
    · intro _
      simp [runWebhook, hdelta]
    · intro w' hw'
      simp [runWebhook, hw', hdelta]
  | ok hd0 =>
    refine ⟨?_, ?_, ?_⟩
    · intro hd h
      cases h
      constructor
      · intro hne
        refine ⟨?_, ?_, ?_⟩
        · simp [runWebhook, hdelta, if_neg hne]
        · simp [runWebhook, hdelta, if_neg hne, updateTable]
        · intro x hx
          simp [runWebhook, hdelta, if_neg hne, updateTable, hx]
      · intro he
        simp [runWebhook, hdelta, he]
    · intro h
      simp at h
    · intro w' hw'
      simp [runWebhook, hw', hdelta]

/-- World for the C2 witness: the delta fetch succeeds with end cursor
`999` and neither listed message resolves. -/
def c2World : NotifWorld :=
  ⟨fun _ => .ok ⟨some [⟨some [⟨some ⟨"m1", none⟩⟩, ⟨some ⟨"m2", none⟩⟩]⟩], "999"⟩,
   fun _ => .error ()⟩

/-- Witness for C2 at a concrete notification: the cursor advances to the
end cursor even though every per-message resolution failed, and other
mailboxes are untouched. -/
theorem cursor_commit_rule_witness :
    (runWebhook c2World (fun _ => none) "user@x.com" "100").1 =
      updateTable (fun _ => none) "user@x.com" "999" ∧
    (runWebhook c2World (fun _ => none) "user@x.com" "100").1 "user@x.com" =
      some "999" ∧
    (runWebhook c2World (fun _ => none) "user@x.com" "100").1 "other@x.com" =
      none := by
  obtain ⟨h1, h2, h3⟩ :=
    ((cursor_commit_rule c2World (fun _ => none) "user@x.com" "100").1
      ⟨some [⟨some [⟨some ⟨"m1", none⟩⟩, ⟨some ⟨"m2", none⟩⟩]⟩], "999"⟩ rfl).1
      (by decide)
  exact ⟨h1, h2, h3 "other@x.com" (by decide)⟩

/-- World refuting C3: the delta fetch succeeds with no history entries and
end cursor `123`. -/
def emptyHistoryWorld : NotifWorld :=
  ⟨fun _ => .ok ⟨none, "123"⟩, fun _ => .error ()⟩

/-- Counterexample to C3 as stated: a delta response with no history
entries does not produce a hard failure — the run completes normally with
an empty match list and even commits the end cursor. -/
theorem empty_history_not_hard_failure :
    (runWebhook emptyHistoryWorld (fun _ => none) "user@x.com" "5").2 =
      .completed [] ∧
    (runWebhook emptyHistoryWorld (fun _ => none) "user@x.com" "5").2 ≠
      .criticalError ∧
    (runWebhook emptyHistoryWorld (fun _ => none) "user@x.com" "5").1
      "user@x.com" = some "123" := by decide

/-- C3 (amended): a delta fetch that succeeds with no history entries is
treated as an empty "no new messages" result: the handler completes
normally with an empty match list and still commits the end cursor when
one is present; no failure is reported upward. -/
theorem empty_history_no_failure
    (w : NotifWorld) (t : String → Option String) (email notified : String)
    (hd : HistoryData)
    (h : w.delta (resolveStartCursor t email notified) = .ok hd)
    (hnone : hd.history = none) :
    (runWebhook w t email notified).2 = .completed [] ∧
    (hd.historyId ≠ "" →
      (runWebhook w t email notified).1 email = some hd.historyId) := by
  constructor
  · simp [runWebhook, h, collectAddedIds, hnone]
  · intro hne
    simp [runWebhook, h, if_neg hne, updateTable]

/-- Witness for C3 (amended) at the concrete empty-history world. -/
theorem empty_history_no_failure_witness :
    (runWebhook emptyHistoryWorld (fun _ => none) "u@x.com" "7").2 =
      .completed [] ∧
    (runWebhook emptyHistoryWorld (fun _ => none) "u@x.com" "7").1 "u@x.com" =
      some "123" := by
  obtain ⟨h1, h2⟩ :=
    empty_history_no_failure emptyHistoryWorld (fun _ => none) "u@x.com" "7"
      ⟨none, "123"⟩ rfl rfl
  exact ⟨h1, h2 (by decide)⟩

/-- C6: the starting cursor for the delta fetch is the cursor-table entry
for the notified mailbox when one is present, and otherwise the notified
cursor from the payload; the side condition that stored entries are
non-empty is an invariant the handler preserves (third conjunct). -/
theorem start_cursor_rule :
    (∀ (t : String → Option String) (email notified c : String),
        t email = some c → c ≠ "" →
        resolveStartCursor t email notified = c) ∧
    (∀ (t : String → Option String) (email notified : String),
        t email = none → resolveStartCursor t email notified = notified) ∧
    (∀ (w : NotifWorld) (t : String → Option String) (email notified : String),
        (∀ m v, t m = some v → v ≠ "") →
        ∀ m v, (runWebhook w t email notified).1 m = some v → v ≠ "") := by
  refine ⟨?_, ?_, ?_⟩
  · intro t email notified c hc hne
    simp [resolveStartCursor, jsOrS, hc, hne]
  · intro t email notified hn
    simp [resolveStartCursor, jsOrS, hn]
  · intro w t email notified hinv m v
    cases hdelta : w.delta (resolveStartCursor t email notified) with
    | err =>
      simp only [runWebhook, hdelta]
      intro h
      exact hinv m v h
    | ok hd =>
      simp only [runWebhook, hdelta]
      by_cases he : hd.historyId = ""
      · simp only [if_pos he]
        intro h
        exact hinv m v h
      · simp only [if_neg he, updateTable]
        by_cases hm : m = email
        · simp only [if_pos hm]
          intro h
          cases h
          exact he
        · simp only [if_neg hm]
          intro h
          exact hinv m v h

/-- Witness for C6 at concrete tables: a present entry wins, an absent one
falls back to the notified cursor, and a run of the handler preserves the
non-empty-entries invariant. -/
theorem start_cursor_rule_witness :
    resolveStartCursor (fun x => if x = "u@x.com" then some "42" else none)
      "u@x.com" "100" = "42" ∧
    resolveStartCursor (fun _ => none) "u@x.com" "100" = "100" ∧
    ∀ m v, (runWebhook emptyHistoryWorld (fun _ => none) "u@x.com" "100").1 m =
        some v → v ≠ "" := by
  refine ⟨?_, ?_, ?_⟩
  · exact start_cursor_rule.1 _ "u@x.com" "100" "42" (by decide) (by decide)
  · exact start_cursor_rule.2.1 _ "u@x.com" "100" rfl
  · exact start_cursor_rule.2.2 emptyHistoryWorld (fun _ => none) "u@x.com" "100"
      (fun m v h => by cases h)

/-- End-to-end check of the specification's §8 scenario: no prior cursor,
two added messages, one resolves and matches the marker, the other fails
to resolve; the match list has exactly one entry and the cursor still
advances to the end cursor. -/
example :
    runWebhook
      ⟨fun _ => .ok ⟨some [⟨some [⟨some ⟨"m1", some ["INBOX"]⟩⟩,
                            ⟨some ⟨"m2", none⟩⟩]⟩], "999"⟩,
       fun mid =>
        if mid = "m1" then
          .ok ⟨some ["INBOX"],
            some (.mk "text/plain"
              "c3BhbS10ZXN0LTFhMmIzYzRkLTFhMmItMWEyYi0xYTJiLTFhMmIzYzRkNWU2Zg==" [])⟩
        else .error ()⟩
      (fun _ => none) "user@x.com" "100" =
    (updateTable (fun _ => none) "user@x.com" "999",
      .completed [⟨"1a2b3c4d-1a2b-1a2b-1a2b-1a2b3c4d5e6f", ["INBOX"]⟩]) := rfl

end GmailPubSub
